import Mathlib

/-!
Verification of the live TLS credential manager of `handletec/listener`
(`tlsconfigbuilder.go`).  The Go code is shallowly embedded: PEM payloads
are modelled as pre-lexed block lists, the file system as an abstract
record of `stat` / `readFile` / `readDir` / `loadKeyPair` functions, and
the mutable `TLSConfigBuilder` as a Lean structure threaded through the
operations.  The single `*x509.CertPool` object owned by a builder is
represented by the builder field `poolContents`; a produced `tls.Config`
that stores the pointer `t.ca` is modelled by a `Bool` flag recording
that it aliases the builder's pool.
-/

namespace Listener

/-- An X.509 certificate, identified opaquely. -/
structure Cert where
  id : Nat
  deriving DecidableEq

/-- A loaded certificate/key pair (`tls.Certificate`), identified opaquely. -/
structure Credential where
  certId : Nat
  keyId : Nat
  deriving DecidableEq

/-- One PEM block as returned by `pem.Decode`: its `Type` header and the
result of `x509.ParseCertificate` on its bytes (`none` = malformed). -/
structure Block where
  type : String
  parse : Option Cert

/-- A directory entry as returned by `os.ReadDir`: the entry name and
whether `entry.Type().IsRegular()` holds. -/
structure DirEntry where
  name : String
  regular : Bool

/-- Result of `os.Stat`. -/
structure StatInfo where
  isDir : Bool

/-- Abstract file system: `stat`, `readFile` (contents pre-lexed into PEM
blocks), `readDir`, and `tls.LoadX509KeyPair` on a cert/key path pair
(`none` = the load fails). -/
structure FS where
  stat : String → Option StatInfo
  readFile : String → Option (List Block)
  readDir : String → Option (List DirEntry)
  loadKeyPair : String → String → Option Credential

/-- Errors produced by the builder operations, mirroring the `fmt.Errorf`
wrappings in the Go source. -/
inductive GoError where
  /-- `read CA dir '%s': %w` -/
  | readCADir (dir : String)
  /-- `read CA file '%s': %w` -/
  | readCAFile (path : String)
  /-- `parse cert: %w` -/
  | parseCert
  /-- `load CA '%s': %w` (wrap added by `AddCADir`) -/
  | loadCA (path : String) (inner : GoError)
  /-- `file check '%s': %w` -/
  | fileCheck (path : String)
  /-- `'%s' is a directory, expected file` -/
  | isDirectory (path : String)
  /-- failure of `tls.LoadX509KeyPair` inside `reloadCert` -/
  | keyPairLoad
  /-- failure of `tls.X509KeyPair` inside `SetCertKeyFromBytes` -/
  | x509KeyPair
  /-- `server cert load error: %w` — the panic raised by `injectServerCert` -/
  | serverCertLoad (inner : GoError)
  deriving DecidableEq

/-- The `TLSConfigBuilder` state.  `poolContents` is the contents of the
single `*x509.CertPool` object `t.ca` (allocated once in the constructor
and never replaced); `cert` is the `atomic.Value` cell; `watcherSet`
models `t.watcher != nil`; `doneClosed` models the `done` channel having
been closed; `liveWatches` counts background watch goroutines still
running.  A running goroutine loops on a `select` over the event, error
and `done` channels; `select` chooses among ready cases with no
priority, so a goroutine spawned while `done` is already closed is live
until a loop iteration happens to take the `done` arm, and may service
qualifying events meanwhile (the exit is a separate trace step). -/
structure TLSConfigBuilder where
  poolContents : List Cert
  certFile : String
  keyFile : String
  clientAuth : Int
  insecure : Bool
  cert : Option Credential
  watcherSet : Bool
  doneClosed : Bool
  liveWatches : Nat

/-- `NewTLSConfigBuilder`: fresh builder; with `useSystemCA` the pool is
seeded from the platform trust store (passed in as `systemCerts`). -/
def NewTLSConfigBuilder (systemCerts : List Cert) (useSystemCA : Bool) : TLSConfigBuilder :=
  { poolContents := if useSystemCA then systemCerts else []
    certFile := ""
    keyFile := ""
    clientAuth := 0
    insecure := false
    cert := none
    watcherSet := false
    doneClosed := false
    liveWatches := 0 }

/-- `AddCABytes`: loop of `pem.Decode` over the buffer; non-CERTIFICATE
blocks are skipped, a parse failure returns the error at once (the pool
keeps the certificates already added in place), otherwise the parsed
certificate is appended to the shared pool via `AddCert`. -/
def AddCABytes (t : TLSConfigBuilder) : List Block → TLSConfigBuilder × Option GoError
  | [] => (t, none)
  | b :: rest =>
    if b.type = "CERTIFICATE" then
      match b.parse with
      | none => (t, some .parseCert)
      | some c => AddCABytes { t with poolContents := t.poolContents ++ [c] } rest
    else
      AddCABytes t rest

/-- Certificates successfully parsed from the blocks strictly before the
first malformed CERTIFICATE block (all of them when no block is
malformed); non-CERTIFICATE blocks contribute nothing. -/
def validCertsPrefix : List Block → List Cert
  | [] => []
  | b :: rest =>
    if b.type = "CERTIFICATE" then
      match b.parse with
      | none => []
      | some c => c :: validCertsPrefix rest
    else
      validCertsPrefix rest

/-- Whether some CERTIFICATE block in the list is malformed. -/
def hasBadCert : List Block → Bool
  | [] => false
  | b :: rest =>
    if b.type = "CERTIFICATE" then
      match b.parse with
      | none => true
      | some _ => hasBadCert rest
    else
      hasBadCert rest

/-- `strings.ToLower`, modelled rune-wise (ASCII case mapping, which is
all the extension comparison needs). -/
def strToLower (s : String) : String :=
  String.mk (s.data.map Char.toLower)

/-- Helper for `filepath.Ext`: the suffix of the character list starting
at its last `.`, when one exists. -/
def extAux : List Char → Option (List Char)
  | [] => none
  | c :: rest =>
    match extAux rest with
    | some e => some e
    | none => if c = '.' then some (c :: rest) else none

/-- `filepath.Ext` on a directory-entry name (which contains no path
separator): the suffix beginning at the final dot, empty when the name
has no dot. -/
def filepathExt (s : String) : String :=
  match extAux s.data with
  | some e => String.mk e
  | none => ""

/-- `filepath.Join(dir, name)` for a clean directory path and a plain
entry name. -/
def joinPath (dir name : String) : String :=
  dir ++ "/" ++ name

/-- `AddCAFile`: empty path is a no-op; otherwise read the file (error
wrapped with the path on failure) and delegate to `AddCABytes`. -/
def AddCAFile (fs : FS) (t : TLSConfigBuilder) (path : String) :
    TLSConfigBuilder × Option GoError :=
  if path = "" then (t, none)
  else
    match fs.readFile path with
    | none => (t, some (.readCAFile path))
    | some blocks => AddCABytes t blocks

/-- Loop body of `AddCADir`: skip non-regular entries, skip entries whose
lowercased extension is neither `.crt` nor `.pem`, load the others via
`AddCAFile`, failing fast with the full path wrapped into the error. -/
def addCADirLoop (fs : FS) (dir : String) (t : TLSConfigBuilder) :
    List DirEntry → TLSConfigBuilder × Option GoError
  | [] => (t, none)
  | e :: rest =>
    if e.regular then
      let ext := strToLower (filepathExt e.name)
      if ext = ".crt" ∨ ext = ".pem" then
        let path := joinPath dir e.name
        match AddCAFile fs t path with
        | (t1, some err) => (t1, some (.loadCA path err))
        | (t1, none) => addCADirLoop fs dir t1 rest
      else
        addCADirLoop fs dir t rest
    else
      addCADirLoop fs dir t rest

/-- `AddCADir`: empty directory name is a no-op; otherwise enumerate the
directory and run the loading loop over its entries. -/
def AddCADir (fs : FS) (t : TLSConfigBuilder) (dir : String) :
    TLSConfigBuilder × Option GoError :=
  if dir = "" then (t, none)
  else
    match fs.readDir dir with
    | none => (t, some (.readCADir dir))
    | some entries => addCADirLoop fs dir t entries

/-- The entries `AddCADir` actually loads: regular files whose extension,
lowercased, is `.crt` or `.pem`. -/
def isCAEntry (e : DirEntry) : Bool :=
  e.regular &&
    (strToLower (filepathExt e.name) = ".crt" || strToLower (filepathExt e.name) = ".pem")

/-- The error outcome of `AddCAFile` on a path — it depends only on the
file system, not on the builder the certificates are added to. -/
def caFileErr (fs : FS) (path : String) : Option GoError :=
  if path = "" then none
  else
    match fs.readFile path with
    | none => some (.readCAFile path)
    | some blocks => if hasBadCert blocks then some .parseCert else none

/-- `FileExists`: `os.Stat` the path, error when it cannot be statted or
is a directory. -/
def FileExists (fs : FS) (path : String) : Option GoError :=
  match fs.stat path with
  | none => some (.fileCheck path)
  | some info => if info.isDir then some (.isDirectory path) else none

/-- `SetCertKeyFile`: validate both paths with `FileExists` before
storing either of them. -/
def SetCertKeyFile (fs : FS) (t : TLSConfigBuilder) (certPath keyPath : String) :
    TLSConfigBuilder × Option GoError :=
  match FileExists fs certPath with
  | some e => (t, some e)
  | none =>
    match FileExists fs keyPath with
    | some e => (t, some e)
    | none => ({ t with certFile := certPath, keyFile := keyPath }, none)

/-- `SetCertKeyFromBytes`: `parsed` is the result of `tls.X509KeyPair` on
the given PEM buffers; on success the pair is stored in the cell. -/
def SetCertKeyFromBytes (t : TLSConfigBuilder) (parsed : Option Credential) :
    TLSConfigBuilder × Option GoError :=
  match parsed with
  | none => (t, some .x509KeyPair)
  | some cred => ({ t with cert := some cred }, none)

/-- `SetClientAuth`. -/
def SetClientAuth (t : TLSConfigBuilder) (auth : Int) : TLSConfigBuilder :=
  { t with clientAuth := auth }

/-- `SetInsecureSkipVerify`. -/
def SetInsecureSkipVerify (t : TLSConfigBuilder) (skip : Bool) : TLSConfigBuilder :=
  { t with insecure := skip }

/-- `TLSClientAuth.AuthType`: out-of-range values clamp to `NoClientCert`. -/
def AuthType (tca : Int) : Int :=
  if tca < 0 ∨ tca > 4 then 0 else tca

/-- `reloadCert`: `tls.LoadX509KeyPair` on the configured paths; on error
return it without touching the cell, on success store the new pair. -/
def reloadCert (fs : FS) (t : TLSConfigBuilder) : TLSConfigBuilder × Option GoError :=
  match fs.loadKeyPair t.certFile t.keyFile with
  | none => (t, some .keyPairLoad)
  | some cred => ({ t with cert := some cred }, none)

/-- `startWatcher`: a no-op when `t.watcher` is already non-nil; on
`fsnotify.NewWatcher` failure (`initOk = false`) it degrades to no live
reload; otherwise it records the watcher, re-adds the directory watches
and spawns a new watch goroutine — unconditionally live, whatever the
state of the `done` channel, since its `select` gives the `done` arm no
priority over incoming events. -/
def startWatcher (t : TLSConfigBuilder) (initOk : Bool) : TLSConfigBuilder :=
  if t.watcherSet then t
  else if initOk then
    { t with watcherSet := true, liveWatches := t.liveWatches + 1 }
  else t

/-- A produced `tls.Config`.  `clientCAsShared` / `rootCAsShared` record
that the config stores the pointer `t.ca` in `ClientCAs` / `RootCAs`;
`certificates` is the freshly allocated `[]tls.Certificate{*cert}`
value copy. -/
structure TLSConfig where
  clientAuth : Int := 0
  clientCAsShared : Bool := false
  rootCAsShared : Bool := false
  minVersion : Nat := 0
  insecureSkipVerify : Bool := false
  certificates : List Credential := []

/-- The certificate set a config's `ClientCAs` pool holds at the moment
the builder state is `t`: dereferencing the stored pool pointer reads
the builder's single pool object. -/
def configClientCAs (t : TLSConfigBuilder) (cfg : TLSConfig) : List Cert :=
  if cfg.clientCAsShared then t.poolContents else []

/-- `injectServerCert`: when the cell is empty and both file paths are
configured, load synchronously and panic (modelled as `.error`) when the
load fails; then, when the cell holds a certificate, copy it into the
config and start the watcher. -/
def injectServerCert (fs : FS) (initOk : Bool) (t : TLSConfigBuilder) :
    Except GoError (TLSConfigBuilder × List Credential) :=
  if t.cert = none ∧ t.certFile ≠ "" ∧ t.keyFile ≠ "" then
    match reloadCert fs t with
    | (_, some e) => .error (.serverCertLoad e)
    | (t1, none) =>
      match t1.cert with
      | some c => .ok (startWatcher t1 initOk, [c])
      | none => .ok (t1, [])
  else
    match t.cert with
    | some c => .ok (startWatcher t initOk, [c])
    | none => .ok (t, [])

/-- `ForServer`: build the server config (client-auth level copied by
value, `ClientCAs` aliasing the builder's pool, TLS 1.2 floor) and run
`injectServerCert`; a panic there surfaces as `.error`. -/
def ForServer (fs : FS) (initOk : Bool) (t : TLSConfigBuilder) :
    Except GoError (TLSConfigBuilder × TLSConfig) :=
  match injectServerCert fs initOk t with
  | .error e => .error e
  | .ok (t1, certs) =>
    .ok (t1,
      { clientAuth := AuthType t.clientAuth
        clientCAsShared := true
        minVersion := 0x0303
        certificates := certs })

/-- `ForClient`: client config with `RootCAs` aliasing the builder's
pool, the insecure flag, and the cell's certificate copied in when
present; no watcher is started and the builder is not mutated. -/
def ForClient (t : TLSConfigBuilder) : TLSConfig :=
  { rootCAsShared := true
    minVersion := 0x0303
    insecureSkipVerify := t.insecure
    certificates :=
      match t.cert with
      | some c => [c]
      | none => [] }

/-- `close(t.done)` on the raw channel: panics (modelled as `.error`)
when the channel is already closed; closing it makes every watch
goroutine exit. -/
def closeChan (t : TLSConfigBuilder) : Except Unit TLSConfigBuilder :=
  if t.doneClosed then .error ()
  else .ok { t with doneClosed := true, liveWatches := 0 }

/-- `Close`: when a watcher is recorded, close `done` unless the
`select` sees it already closed, then clear the watcher field. -/
def Close (t : TLSConfigBuilder) : Except Unit TLSConfigBuilder :=
  if t.watcherSet then
    if t.doneClosed then
      .ok { t with watcherSet := false }
    else
      match closeChan t with
      | .error e => .error e
      | .ok t1 => .ok { t1 with watcherSet := false }
  else
    .ok t

/-- A public operation on the builder, used to state temporal
properties over arbitrary call sequences.  `forServer` carries the
outcome of its possible `fsnotify.NewWatcher` call; `monitorEvent` is a
qualifying file event delivered to a live watch goroutine (its `select`
may take the event arm even when `done` is closed); `goroutineExit` is
a live goroutine's `select` taking the `done` arm of a closed `done`
channel and returning. -/
inductive Op where
  | addCABytes (blocks : List Block)
  | addCAFile (path : String)
  | addCADir (dir : String)
  | setCertKeyFile (certPath keyPath : String)
  | setCertKeyFromBytes (parsed : Option Credential)
  | setClientAuth (auth : Int)
  | setInsecure (skip : Bool)
  | forServer (initOk : Bool)
  | forClient
  | close
  | monitorEvent
  | goroutineExit

/-- The builder state after one operation.  A `ForServer` panic unwinds
before any state change beyond the failed (and stateless) reload; a
`Close` panic cannot occur but would likewise leave the state.  A
`monitorEvent` triggers a reload only when a watch goroutine is live;
its reload error is only logged. -/
def stepOp (fs : FS) (t : TLSConfigBuilder) : Op → TLSConfigBuilder
  | .addCABytes blocks => (AddCABytes t blocks).1
  | .addCAFile path => (AddCAFile fs t path).1
  | .addCADir dir => (AddCADir fs t dir).1
  | .setCertKeyFile c k => (SetCertKeyFile fs t c k).1
  | .setCertKeyFromBytes parsed => (SetCertKeyFromBytes t parsed).1
  | .setClientAuth a => SetClientAuth t a
  | .setInsecure b => SetInsecureSkipVerify t b
  | .forServer initOk =>
    match ForServer fs initOk t with
    | .ok (t1, _) => t1
    | .error _ => t
  | .forClient => t
  | .close =>
    match Close t with
    | .ok t1 => t1
    | .error _ => t
  | .monitorEvent => if t.liveWatches ≠ 0 then (reloadCert fs t).1 else t
  | .goroutineExit =>
    if t.doneClosed ∧ t.liveWatches ≠ 0 then { t with liveWatches := t.liveWatches - 1 }
    else t

/-- The builder state after a sequence of operations. -/
def runOps (fs : FS) : List Op → TLSConfigBuilder → TLSConfigBuilder
  | [], t => t
  | op :: ops, t => runOps fs ops (stepOp fs t op)

/-! Concrete fixtures used by witnesses and counterexamples. -/

/-- A file system on which every call fails. -/
def fsFail : FS :=
  { stat := fun _ => none
    readFile := fun _ => none
    readDir := fun _ => none
    loadKeyPair := fun _ _ => none }

/-- A fresh builder without system CAs. -/
def b0 : TLSConfigBuilder := NewTLSConfigBuilder [] false

/-- A builder with cert/key file paths configured and an empty cell. -/
def bFiles : TLSConfigBuilder := { b0 with certFile := "server.crt", keyFile := "server.key" }

/-- A builder whose watcher is already running. -/
def bW : TLSConfigBuilder := { b0 with watcherSet := true, liveWatches := 1 }

/-- Sample certificates. -/
def certA1 : Cert := ⟨1⟩

/-- Second sample certificate. -/
def certB2 : Cert := ⟨2⟩

/-- Third sample certificate, added after a config has been issued. -/
def certL7 : Cert := ⟨7⟩

/-- The config `ForServer` issues from `b0` on `fsFail`. -/
def cfgIssued : TLSConfig :=
  { clientAuth := 0
    clientCAsShared := true
    minVersion := 0x0303
    certificates := [] }

/-- A file system on which the cert/key paths stat as regular files but
every key-pair load fails (the files turned bad after configuration). -/
def fsTransient : FS :=
  { stat := fun p => if p = "server.crt" ∨ p = "server.key" then some ⟨false⟩ else none
    readFile := fun _ => none
    readDir := fun _ => none
    loadKeyPair := fun _ _ => none }

/-- The credential published before the manager is closed. -/
def cred0 : Credential := ⟨10, 10⟩

/-- The credential sitting on disk after a rotation. -/
def cred1 : Credential := ⟨11, 11⟩

/-- A file system where the configured cert/key pair loads to `cred1`. -/
def fsGood : FS :=
  { stat := fun p => if p = "server.crt" ∨ p = "server.key" then some ⟨false⟩ else none
    readFile := fun _ => none
    readDir := fun _ => none
    loadKeyPair := fun c k =>
      if c = "server.crt" ∧ k = "server.key" then some cred1 else none }

/-- A manager that has published `cred0` and is watching its files. -/
def bLive : TLSConfigBuilder :=
  { bFiles with cert := some cred0, watcherSet := true, liveWatches := 1 }

/-- The state of `bLive` right after `Close`. -/
def bStop : TLSConfigBuilder :=
  { bLive with doneClosed := true, liveWatches := 0, watcherSet := false }

/-- A PEM buffer with a garbage block, one good certificate block and
one malformed certificate block. -/
def c5blocks : List Block :=
  [⟨"GARBAGE", none⟩, ⟨"CERTIFICATE", some certA1⟩, ⟨"CERTIFICATE", none⟩]

/-- Directory listing for the worked example: `a.crt`, `b.pem`, `c.txt`
and a subdirectory `d`. -/
def dirEntries : List DirEntry :=
  [⟨"a.crt", true⟩, ⟨"b.pem", true⟩, ⟨"c.txt", true⟩, ⟨"d", false⟩]

/-- File system for the worked directory-scan example. -/
def fsDir : FS :=
  { stat := fun p => if p = "good" then some ⟨false⟩ else none
    readFile := fun p =>
      if p = "ca/a.crt" then some [⟨"CERTIFICATE", some certA1⟩]
      else if p = "ca/b.pem" then some [⟨"CERTIFICATE", some certB2⟩]
      else if p = "ca/c.txt" then some [⟨"GARBAGE", none⟩]
      else none
    readDir := fun d => if d = "ca" then some dirEntries else none
    loadKeyPair := fun _ _ => none }

/-! Theorems. -/

/-- Characterisation of `AddCABytes`: the pool gains exactly the valid
certificates preceding the first malformed CERTIFICATE block, the other
builder fields are untouched, and the call errors exactly when some
CERTIFICATE block is malformed. -/
theorem AddCABytes_eq (t : TLSConfigBuilder) (blocks : List Block) :
    AddCABytes t blocks =
      ({ t with poolContents := t.poolContents ++ validCertsPrefix blocks },
        if hasBadCert blocks then some .parseCert else none) := by
  induction blocks generalizing t with
  | nil => simp [AddCABytes, validCertsPrefix, hasBadCert]
  | cons b rest ih =>
    by_cases hb : b.type = "CERTIFICATE"
    · cases hp : b.parse with
      | none => simp [AddCABytes, validCertsPrefix, hasBadCert, hb, hp]
      | some c => simp [AddCABytes, validCertsPrefix, hasBadCert, hb, hp, ih]
    · simp [AddCABytes, validCertsPrefix, hasBadCert, hb, ih]

/-- Claim C5: `AddCABytes` parses zero or more PEM certificate blocks;
a PEM block whose type is not CERTIFICATE is skipped without error; the
first malformed CERTIFICATE block makes the whole call return a parse
error, and the certificates parsed before the failing block have already
been added to the (shared, in-place mutated) pool — there is no
atomicity across certificates in one buffer. -/
theorem claim_C5 :
    (∀ (t : TLSConfigBuilder) (blocks : List Block),
      AddCABytes t blocks =
        ({ t with poolContents := t.poolContents ++ validCertsPrefix blocks },
          if hasBadCert blocks then some .parseCert else none))
  ∧ (∀ (t : TLSConfigBuilder) (b : Block) (rest : List Block),
      b.type ≠ "CERTIFICATE" → AddCABytes t (b :: rest) = AddCABytes t rest) := by
  refine ⟨AddCABytes_eq, fun t b rest hb => ?_⟩
  simp [AddCABytes, hb]

/-- Witness for claim C5 at a concrete buffer: a garbage block followed
by one good certificate block and one malformed certificate block. -/
theorem claim_C5_witness :
    (AddCABytes b0 c5blocks =
      ({ b0 with poolContents := b0.poolContents ++ validCertsPrefix c5blocks },
        if hasBadCert c5blocks then some .parseCert else none))
  ∧ AddCABytes b0 (⟨"GARBAGE", none⟩ :: [⟨"CERTIFICATE", some certA1⟩]) =
      AddCABytes b0 [⟨"CERTIFICATE", some certA1⟩] :=
  ⟨claim_C5.1 b0 c5blocks, claim_C5.2 b0 ⟨"GARBAGE", none⟩ _ (by decide)⟩

/-- The error component of `AddCAFile` does not depend on the builder. -/
theorem AddCAFile_snd (fs : FS) (t : TLSConfigBuilder) (path : String) :
    (AddCAFile fs t path).2 = caFileErr fs path := by
  unfold AddCAFile caFileErr
  by_cases hp : path = ""
  · simp [hp]
  · cases hf : fs.readFile path with
    | none => simp [hp, hf]
    | some blocks => simp [hp, hf, AddCABytes_eq]

/-- The directory loop processes exactly the entries selected by
`isCAEntry`. -/
theorem addCADirLoop_filter (fs : FS) (dir : String) :
    ∀ (entries : List DirEntry) (t : TLSConfigBuilder),
      addCADirLoop fs dir t entries = addCADirLoop fs dir t (entries.filter isCAEntry) := by
  intro entries
  induction entries with
  | nil => intro t; rfl
  | cons e rest ih =>
    intro t
    by_cases hr : e.regular
    · by_cases he : strToLower (filepathExt e.name) = ".crt" ∨
        strToLower (filepathExt e.name) = ".pem"
      · have hca : isCAEntry e = true := by
          simp [isCAEntry, hr]
          tauto
        rcases hAdd : AddCAFile fs t (joinPath dir e.name) with ⟨t1, err⟩
        cases err with
        | some g => simp [addCADirLoop, hr, he, hca, hAdd]
        | none => simp [addCADirLoop, hr, he, hca, hAdd, ih]
      · have hca : isCAEntry e = false := by
          simp [isCAEntry]
          tauto
        simp [addCADirLoop, hr, he, hca, ih t]
    · have hca : isCAEntry e = false := by simp [isCAEntry, hr]
      simp [addCADirLoop, hr, hca, ih t]

/-- Every error the directory loop returns is a `loadCA` wrap carrying a
path. -/
theorem addCADirLoop_err (fs : FS) (dir : String) :
    ∀ (entries : List DirEntry) (t : TLSConfigBuilder) (e : GoError),
      (addCADirLoop fs dir t entries).2 = some e →
      ∃ p i, e = GoError.loadCA p i := by
  intro entries
  induction entries with
  | nil => intro t e h; simp [addCADirLoop] at h
  | cons x rest ih =>
    intro t e h
    by_cases hr : x.regular
    · by_cases he : strToLower (filepathExt x.name) = ".crt" ∨
        strToLower (filepathExt x.name) = ".pem"
      · rcases hAdd : AddCAFile fs t (joinPath dir x.name) with ⟨t1, err⟩
        cases err with
        | some g =>
          simp [addCADirLoop, hr, he, hAdd] at h
          exact ⟨joinPath dir x.name, g, h.symm⟩
        | none =>
          simp [addCADirLoop, hr, he, hAdd] at h
          exact ih t1 e h
      · simp [addCADirLoop, hr, he] at h
        exact ih t e h
    · simp [addCADirLoop, hr] at h
      exact ih t e h

/-- Fail-fast: when the selected entries split as a successful prefix, a
first failing entry and a remainder, the loop stops at the failing entry
and wraps its full path into the error. -/
theorem addCADirLoop_failfast (fs : FS) (dir : String) :
    ∀ (es1 : List DirEntry) (d : DirEntry) (es2 : List DirEntry)
      (t : TLSConfigBuilder) (err : GoError),
      (∀ x ∈ es1, isCAEntry x = true) → isCAEntry d = true →
      (∀ x ∈ es1, caFileErr fs (joinPath dir x.name) = none) →
      caFileErr fs (joinPath dir d.name) = some err →
      (addCADirLoop fs dir t (es1 ++ d :: es2)).2 =
        some (GoError.loadCA (joinPath dir d.name) err) := by
  intro es1
  induction es1 with
  | nil =>
    intro d es2 t err _ hd _ herr
    simp only [isCAEntry, Bool.and_eq_true, Bool.or_eq_true, decide_eq_true_eq] at hd
    rcases hAdd : AddCAFile fs t (joinPath dir d.name) with ⟨t1, e⟩
    have : e = some err := by
      have h2 := AddCAFile_snd fs t (joinPath dir d.name)
      rw [hAdd] at h2
      simpa [herr] using h2
    subst this
    simp [addCADirLoop, hd.1, hd.2, hAdd]
  | cons x rest ih =>
    intro d es2 t err hall hd hok herr
    have hx : isCAEntry x = true := hall x (by simp)
    simp only [isCAEntry, Bool.and_eq_true, Bool.or_eq_true, decide_eq_true_eq] at hx
    rcases hAdd : AddCAFile fs t (joinPath dir x.name) with ⟨t1, e⟩
    have : e = none := by
      have h2 := AddCAFile_snd fs t (joinPath dir x.name)
      rw [hAdd] at h2
      simpa [hok x (by simp)] using h2
    subst this
    have := ih d es2 t1 err (fun y hy => hall y (by simp [hy])) hd
      (fun y hy => hok y (by simp [hy])) herr
    simpa [addCADirLoop, hx.1, hx.2, hAdd] using this

/-- When every selected entry loads without error, the loop succeeds. -/
theorem addCADirLoop_allok (fs : FS) (dir : String) :
    ∀ (l : List DirEntry) (t : TLSConfigBuilder),
      (∀ x ∈ l, isCAEntry x = true) →
      (∀ x ∈ l, caFileErr fs (joinPath dir x.name) = none) →
      (addCADirLoop fs dir t l).2 = none := by
  intro l
  induction l with
  | nil => intro t _ _; rfl
  | cons x rest ih =>
    intro t hall hok
    have hx : isCAEntry x = true := hall x (by simp)
    simp only [isCAEntry, Bool.and_eq_true, Bool.or_eq_true, decide_eq_true_eq] at hx
    rcases hAdd : AddCAFile fs t (joinPath dir x.name) with ⟨t1, e⟩
    have : e = none := by
      have h2 := AddCAFile_snd fs t (joinPath dir x.name)
      rw [hAdd] at h2
      simpa [hok x (by simp)] using h2
    subst this
    have := ih t1 (fun y hy => hall y (by simp [hy])) (fun y hy => hok y (by simp [hy]))
    simpa [addCADirLoop, hx.1, hx.2, hAdd] using this

/-- Claim C6: `AddCADir` loads exactly the regular entries of the
directory whose lowercased extension is `.crt` or `.pem` (non-matching
entries and subdirectories are ignored, with no recursion), fails fast
at the first selected file that fails to load with that file's path
wrapped in the error, and succeeds when every selected file loads. -/
theorem claim_C6 (fs : FS) (t : TLSConfigBuilder) (dir : String) (entries : List DirEntry)
    (h1 : dir ≠ "") (h2 : fs.readDir dir = some entries) :
    AddCADir fs t dir = addCADirLoop fs dir t (entries.filter isCAEntry)
  ∧ (∀ e, (AddCADir fs t dir).2 = some e → ∃ p i, e = GoError.loadCA p i)
  ∧ (∀ es1 d es2 err,
      entries.filter isCAEntry = es1 ++ d :: es2 →
      (∀ x ∈ es1, caFileErr fs (joinPath dir x.name) = none) →
      caFileErr fs (joinPath dir d.name) = some err →
      (AddCADir fs t dir).2 = some (GoError.loadCA (joinPath dir d.name) err))
  ∧ ((∀ x ∈ entries.filter isCAEntry, caFileErr fs (joinPath dir x.name) = none) →
      (AddCADir fs t dir).2 = none) := by
  have hdir : AddCADir fs t dir = addCADirLoop fs dir t entries := by
    simp [AddCADir, h1, h2]
  refine ⟨?_, ?_, ?_, ?_⟩
  · rw [hdir]; exact addCADirLoop_filter fs dir entries t
  · intro e he
    rw [hdir] at he
    exact addCADirLoop_err fs dir entries t e he
  · intro es1 d es2 err hsplit hok herr
    rw [hdir, addCADirLoop_filter fs dir entries t, hsplit]
    refine addCADirLoop_failfast fs dir es1 d es2 t err ?_ ?_ hok herr
    · intro x hx
      have : x ∈ entries.filter isCAEntry := by rw [hsplit]; simp [hx]
      exact List.of_mem_filter this
    · have : d ∈ entries.filter isCAEntry := by rw [hsplit]; simp
      exact List.of_mem_filter this
  · intro hok
    rw [hdir, addCADirLoop_filter fs dir entries t]
    refine addCADirLoop_allok fs dir (entries.filter isCAEntry) t ?_ hok
    intro x hx
    exact List.of_mem_filter hx

/-- Witness for claim C6 on the worked example directory `ca` holding
`a.crt`, `b.pem`, `c.txt` and subdirectory `d`: exactly the certificates
of `a.crt` and `b.pem` are added, and no error is returned. -/
theorem claim_C6_witness :
    ((AddCADir fsDir b0 "ca").1.poolContents = [certA1, certB2]
      ∧ (AddCADir fsDir b0 "ca").2 = none)
  ∧ (AddCADir fsDir b0 "ca" = addCADirLoop fsDir "ca" b0 (dirEntries.filter isCAEntry)
      ∧ (∀ e, (AddCADir fsDir b0 "ca").2 = some e → ∃ p i, e = GoError.loadCA p i)
      ∧ (∀ es1 d es2 err,
          dirEntries.filter isCAEntry = es1 ++ d :: es2 →
          (∀ x ∈ es1, caFileErr fsDir (joinPath "ca" x.name) = none) →
          caFileErr fsDir (joinPath "ca" d.name) = some err →
          (AddCADir fsDir b0 "ca").2 = some (GoError.loadCA (joinPath "ca" d.name) err))
      ∧ ((∀ x ∈ dirEntries.filter isCAEntry, caFileErr fsDir (joinPath "ca" x.name) = none) →
          (AddCADir fsDir b0 "ca").2 = none)) :=
  ⟨by decide, claim_C6 fsDir b0 "ca" dirEntries (by decide) rfl⟩

/-- Claim C10: when `SetCertKeyFile` returns an error (a path missing,
unstattable, or a directory), neither the stored certificate-file path
nor the stored key-file path is modified — the whole builder is left
unchanged, so a valid cert path is not recorded when the key path is
invalid. -/
theorem claim_C10 (fs : FS) (t : TLSConfigBuilder) (certPath keyPath : String)
    (h : (SetCertKeyFile fs t certPath keyPath).2.isSome = true) :
    (SetCertKeyFile fs t certPath keyPath).1 = t := by
  unfold SetCertKeyFile at *
  cases h1 : FileExists fs certPath with
  | some e => simp [h1]
  | none =>
    cases h2 : FileExists fs keyPath with
    | some e => simp [h1, h2]
    | none => simp [h1, h2] at h

/-- Witness for claim C10: the cert path stats fine but the key path is
missing; the call errors and the builder keeps its previous paths. -/
theorem claim_C10_witness :
    (SetCertKeyFile fsDir b0 "good" "missing").2.isSome = true
  ∧ (SetCertKeyFile fsDir b0 "good" "missing").1 = b0 :=
  ⟨rfl, claim_C10 fsDir b0 "good" "missing" rfl⟩

/-- Claim C2: when a reload fails (the key-pair load from disk errors),
the previously published credential stays in the cell untouched — the
whole builder is unchanged and the error is only reported; likewise a
monitor-triggered reload event leaves the cell's credential as it was. -/
theorem claim_C2 (fs : FS) (t : TLSConfigBuilder)
    (h : fs.loadKeyPair t.certFile t.keyFile = none) :
    reloadCert fs t = (t, some .keyPairLoad)
  ∧ (stepOp fs t .monitorEvent).cert = t.cert := by
  have hr : reloadCert fs t = (t, some .keyPairLoad) := by
    unfold reloadCert
    rw [h]
  refine ⟨hr, ?_⟩
  by_cases hl : t.liveWatches ≠ 0
  · simp [stepOp, hl, hr]
  · simp [stepOp, hl]

/-- Witness for claim C2: a failing disk with a previously published
credential in the cell. -/
theorem claim_C2_witness :
    fsFail.loadKeyPair bFiles.certFile bFiles.keyFile = none
  ∧ (reloadCert fsFail bFiles = (bFiles, some .keyPairLoad)
      ∧ (stepOp fsFail bFiles .monitorEvent).cert = bFiles.cert) :=
  ⟨rfl, claim_C2 fsFail bFiles rfl⟩

/-- Claim C3 counterexample: `bFiles` has a credential source configured
(`SetCertKeyFile` succeeded on it), yet `ForServer` panics because the
load fails at call time; and `b0` has no credential source configured,
yet `ForServer` returns a configuration (with no certificate) without
panicking.  Both directions of the claimed equivalence fail. -/
theorem claim_C3_counterexample :
    SetCertKeyFile fsTransient b0 "server.crt" "server.key" = (bFiles, none)
  ∧ ForServer fsTransient true bFiles = .error (.serverCertLoad .keyPairLoad)
  ∧ ForServer fsTransient true b0 = .ok (b0, cfgIssued) :=
  ⟨rfl, rfl, rfl⟩

/-- Claim C3 (amended): `ForServer` panics exactly when the cell is
empty, both credential file paths are configured, and the synchronous
load from those files fails; with no source configured it returns (a
certificate-less configuration) without panicking, and with a published
or loadable credential it returns without panicking. -/
theorem claim_C3_amended (fs : FS) (initOk : Bool) (t : TLSConfigBuilder) :
    (∃ e, ForServer fs initOk t = .error e) ↔
      (t.cert = none ∧ t.certFile ≠ "" ∧ t.keyFile ≠ "" ∧
        fs.loadKeyPair t.certFile t.keyFile = none) := by
  by_cases hc : t.cert = none ∧ t.certFile ≠ "" ∧ t.keyFile ≠ ""
  · obtain ⟨h1, h2, h3⟩ := hc
    cases hl : fs.loadKeyPair t.certFile t.keyFile with
    | none => simp [ForServer, injectServerCert, reloadCert, h1, h2, h3, hl]
    | some c => simp [ForServer, injectServerCert, reloadCert, h1, h2, h3, hl]
  · cases ht : t.cert with
    | some c => simp [ForServer, injectServerCert, ht]
    | none =>
      have h2 : ¬(t.certFile ≠ "" ∧ t.keyFile ≠ "") := fun hx => hc ⟨ht, hx.1, hx.2⟩
      by_cases hcf : t.certFile = ""
      · simp [ForServer, injectServerCert, ht, hcf]
      · have hkf : t.keyFile = "" := by
          by_contra hk
          exact h2 ⟨hcf, hk⟩
        simp [ForServer, injectServerCert, ht, hcf, hkf]

/-- The configuration `ForServer` hands out snapshots the client-auth
policy by value and stores the pool by reference. -/
theorem ForServer_ok_cfg (fs : FS) (initOk : Bool) (t t1 : TLSConfigBuilder) (cfg : TLSConfig)
    (h : ForServer fs initOk t = .ok (t1, cfg)) :
    cfg.clientAuth = AuthType t.clientAuth ∧ cfg.clientCAsShared = true := by
  unfold ForServer at h
  cases hi : injectServerCert fs initOk t with
  | error e => rw [hi] at h; cases h
  | ok p =>
    obtain ⟨t2, certs⟩ := p
    rw [hi] at h
    simp only [Except.ok.injEq, Prod.mk.injEq] at h
    rw [← h.2]
    exact ⟨rfl, rfl⟩

/-- Claim C4 counterexample: `ForServer` issues a configuration from
`b0` whose verification pool is empty; a later `AddCABytes` call adds a
certificate and the already-issued configuration's verification pool now
contains it, because the config holds the builder's pool by pointer. -/
theorem claim_C4_counterexample :
    ForServer fsFail true b0 = .ok (b0, cfgIssued)
  ∧ configClientCAs b0 cfgIssued = []
  ∧ (AddCABytes b0 [⟨"CERTIFICATE", some certL7⟩]).2 = none
  ∧ configClientCAs (AddCABytes b0 [⟨"CERTIFICATE", some certL7⟩]).1 cfgIssued = [certL7] :=
  ⟨rfl, rfl, rfl, rfl⟩

/-- Claim C4 (amended): the client-auth policy (and certificate list)
carried by an already-issued configuration are by-value snapshots of the
builder state at issue time, and a later `SetClientAuth` affects only
configurations produced afterwards; but the trust pool is held by
reference, so the pool contents the issued configuration sees for
verification track the builder's pool through later `AddCA` and setter
calls. -/
theorem claim_C4_amended (fs : FS) (initOk : Bool) (t t1 : TLSConfigBuilder) (cfg : TLSConfig)
    (h : ForServer fs initOk t = .ok (t1, cfg)) :
    cfg.clientAuth = AuthType t.clientAuth
  ∧ (∀ blocks a, configClientCAs (SetClientAuth (AddCABytes t1 blocks).1 a) cfg
      = (SetClientAuth (AddCABytes t1 blocks).1 a).poolContents)
  ∧ (∀ a fs2 ok2 t2 cfg2, ForServer fs2 ok2 (SetClientAuth t1 a) = .ok (t2, cfg2) →
      cfg2.clientAuth = AuthType a) := by
  obtain ⟨hpol, hshared⟩ := ForServer_ok_cfg fs initOk t t1 cfg h
  refine ⟨hpol, ?_, ?_⟩
  · intro blocks a
    simp [configClientCAs, hshared]
  · intro a fs2 ok2 t2 cfg2 h2
    have := (ForServer_ok_cfg fs2 ok2 (SetClientAuth t1 a) t2 cfg2 h2).1
    simpa [SetClientAuth] using this

/-- Witness for claim C4 (amended), instantiated at the issued
configuration of the counterexample state. -/
theorem claim_C4_witness :
    cfgIssued.clientAuth = AuthType b0.clientAuth
  ∧ (∀ blocks a, configClientCAs (SetClientAuth (AddCABytes b0 blocks).1 a) cfgIssued
      = (SetClientAuth (AddCABytes b0 blocks).1 a).poolContents)
  ∧ (∀ a fs2 ok2 t2 cfg2, ForServer fs2 ok2 (SetClientAuth b0 a) = .ok (t2, cfg2) →
      cfg2.clientAuth = AuthType a) :=
  claim_C4_amended fsFail true b0 b0 cfgIssued rfl

/-- Claim C7: starting the file-change monitor is idempotent — when a
watcher is already recorded, `startWatcher` is a no-op (and no error);
and from a fresh manager two `startWatcher` calls leave exactly one live
background watch, so a single file event never triggers duplicate
reloads. -/
theorem claim_C7 :
    (∀ (t : TLSConfigBuilder) (initOk : Bool), t.watcherSet = true → startWatcher t initOk = t)
  ∧ (∀ (t : TLSConfigBuilder) (ok2 : Bool), t.watcherSet = false → t.doneClosed = false →
      t.liveWatches = 0 →
      (startWatcher t true).liveWatches = 1
      ∧ startWatcher (startWatcher t true) ok2 = startWatcher t true) := by
  constructor
  · intro t initOk h
    simp [startWatcher, h]
  · intro t ok2 h1 h2 h3
    constructor
    · simp [startWatcher, h1, h2, h3]
    · simp [startWatcher, h1, h2, h3]

/-- Witness for claim C7 at a builder already watching and at a fresh
builder. -/
theorem claim_C7_witness :
    startWatcher bW true = bW
  ∧ ((startWatcher b0 true).liveWatches = 1
      ∧ startWatcher (startWatcher b0 true) true = startWatcher b0 true) :=
  ⟨claim_C7.1 bW true rfl, claim_C7.2 b0 true rfl rfl rfl⟩

/-- Claim C8: `Close` is safe in every manager state — with no watcher
ever started it does nothing and returns no panic, and a second `Close`
after a first one also returns without panicking. -/
theorem claim_C8 (t : TLSConfigBuilder) :
    (t.watcherSet = false → Close t = .ok t)
  ∧ ∃ t1, Close t = .ok t1 ∧ ∃ t2, Close t1 = .ok t2 := by
  constructor
  · intro h
    simp [Close, h]
  · by_cases hw : t.watcherSet
    · by_cases hd : t.doneClosed
      · exact ⟨{ t with watcherSet := false }, by simp [Close, hw, hd],
          { t with watcherSet := false }, by simp [Close]⟩
      · exact ⟨{ t with doneClosed := true, liveWatches := 0, watcherSet := false },
          by simp [Close, closeChan, hw, hd],
          { t with doneClosed := true, liveWatches := 0, watcherSet := false },
          by simp [Close]⟩
    · exact ⟨t, by simp [Close, hw], t, by simp [Close, hw]⟩

/-- Witness for claim C8 at a builder with a running watcher. -/
theorem claim_C8_witness :
    (bW.watcherSet = false → Close bW = .ok bW)
  ∧ ∃ t1, Close bW = .ok t1 ∧ ∃ t2, Close t1 = .ok t2 :=
  claim_C8 bW

/-- `startWatcher` never touches the `done` channel. -/
theorem startWatcher_doneClosed (t : TLSConfigBuilder) (initOk : Bool) :
    (startWatcher t initOk).doneClosed = t.doneClosed := by
  unfold startWatcher
  by_cases hw : t.watcherSet
  · simp [hw]
  · by_cases hi : initOk
    · simp [hw, hi]
    · simp [hw, hi]

/-- `AddCAFile` only ever rewrites the pool contents of the builder. -/
theorem AddCAFile_fst (fs : FS) (t : TLSConfigBuilder) (path : String) :
    ∃ cs, (AddCAFile fs t path).1 = { t with poolContents := cs } := by
  unfold AddCAFile
  by_cases hp : path = ""
  · exact ⟨t.poolContents, by simp [hp]⟩
  · cases hf : fs.readFile path with
    | none => exact ⟨t.poolContents, by simp [hp, hf]⟩
    | some blocks =>
      exact ⟨t.poolContents ++ validCertsPrefix blocks, by simp [hp, hf, AddCABytes_eq]⟩

/-- The directory loop only ever rewrites the pool contents. -/
theorem addCADirLoop_fst (fs : FS) (dir : String) :
    ∀ (entries : List DirEntry) (t : TLSConfigBuilder),
      ∃ cs, (addCADirLoop fs dir t entries).1 = { t with poolContents := cs } := by
  intro entries
  induction entries with
  | nil => intro t; exact ⟨t.poolContents, by simp [addCADirLoop]⟩
  | cons e rest ih =>
    intro t
    by_cases hr : e.regular
    · by_cases he : strToLower (filepathExt e.name) = ".crt" ∨
        strToLower (filepathExt e.name) = ".pem"
      · rcases hAdd : AddCAFile fs t (joinPath dir e.name) with ⟨t1, err⟩
        obtain ⟨cs1, hcs1⟩ := AddCAFile_fst fs t (joinPath dir e.name)
        rw [hAdd] at hcs1
        cases err with
        | some g =>
          refine ⟨cs1, ?_⟩
          simp [addCADirLoop, hr, he, hAdd, hcs1]
        | none =>
          obtain ⟨cs2, hcs2⟩ := ih t1
          refine ⟨cs2, ?_⟩
          have ht1 : t1 = { t with poolContents := cs1 } := by simpa using hcs1
          have hcoll : ({ t1 with poolContents := cs2 } : TLSConfigBuilder) =
              { t with poolContents := cs2 } := by
            rw [ht1]
          rw [← hcoll]
          simpa [addCADirLoop, hr, he, hAdd] using hcs2
      · obtain ⟨cs, hcs⟩ := ih t
        exact ⟨cs, by simpa [addCADirLoop, hr, he] using hcs⟩
    · obtain ⟨cs, hcs⟩ := ih t
      exact ⟨cs, by simpa [addCADirLoop, hr] using hcs⟩

/-- No operation ever reopens the `done` channel: it is created only in
the constructor and only ever closed. -/
theorem stepOp_doneClosed (fs : FS) (t : TLSConfigBuilder) (op : Op)
    (hd : t.doneClosed = true) : (stepOp fs t op).doneClosed = true := by
  cases op with
  | addCABytes blocks => simp [stepOp, AddCABytes_eq, hd]
  | addCAFile path =>
    obtain ⟨cs, hcs⟩ := AddCAFile_fst fs t path
    simp [stepOp, hcs, hd]
  | addCADir dir =>
    by_cases hdir : dir = ""
    · simp [stepOp, AddCADir, hdir, hd]
    · cases hrd : fs.readDir dir with
      | none => simp [stepOp, AddCADir, hdir, hrd, hd]
      | some entries =>
        obtain ⟨cs, hcs⟩ := addCADirLoop_fst fs dir entries t
        simp [stepOp, AddCADir, hdir, hrd, hcs, hd]
  | setCertKeyFile c k =>
    cases h1 : FileExists fs c with
    | some e => simp [stepOp, SetCertKeyFile, h1, hd]
    | none =>
      cases h2 : FileExists fs k with
      | some e => simp [stepOp, SetCertKeyFile, h1, h2, hd]
      | none => simp [stepOp, SetCertKeyFile, h1, h2, hd]
  | setCertKeyFromBytes parsed =>
    cases parsed with
    | none => simp [stepOp, SetCertKeyFromBytes, hd]
    | some c => simp [stepOp, SetCertKeyFromBytes, hd]
  | setClientAuth a => simp [stepOp, SetClientAuth, hd]
  | setInsecure b => simp [stepOp, SetInsecureSkipVerify, hd]
  | forServer initOk =>
    by_cases hc : t.cert = none ∧ t.certFile ≠ "" ∧ t.keyFile ≠ ""
    · obtain ⟨h1, h2, h3⟩ := hc
      cases hload : fs.loadKeyPair t.certFile t.keyFile with
      | none => simp [stepOp, ForServer, injectServerCert, reloadCert, h1, h2, h3, hload, hd]
      | some cred =>
        simp [stepOp, ForServer, injectServerCert, reloadCert, h1, h2, h3, hload,
          startWatcher_doneClosed, hd]
    · cases ht : t.cert with
      | some c =>
        simp [stepOp, ForServer, injectServerCert, ht, hc, startWatcher_doneClosed, hd]
      | none =>
        have hcfk : ¬(t.certFile ≠ "" ∧ t.keyFile ≠ "") := fun hx => hc ⟨ht, hx.1, hx.2⟩
        by_cases hcf : t.certFile = ""
        · simp [stepOp, ForServer, injectServerCert, ht, hcf, hd]
        · have hkf : t.keyFile = "" := by
            by_contra hk
            exact hcfk ⟨hcf, hk⟩
          simp [stepOp, ForServer, injectServerCert, ht, hcf, hkf, hd]
  | forClient => exact hd
  | close =>
    by_cases hw : t.watcherSet
    · simp [stepOp, Close, hw, hd]
    · simp [stepOp, Close, hw, hd]
  | monitorEvent =>
    by_cases hlw : t.liveWatches ≠ 0
    · cases hload : fs.loadKeyPair t.certFile t.keyFile with
      | none => simp [stepOp, hlw, reloadCert, hload, hd]
      | some cred => simp [stepOp, hlw, reloadCert, hload, hd]
    · simp [stepOp, hlw, hd]
  | goroutineExit =>
    simp only [stepOp]
    split <;> exact hd

/-- One operation other than `ForServer` on a stopped manager leaves it
stopped: the `done` channel stays closed and no watch goroutine comes
alive.  (`ForServer` is genuinely excluded: it can recreate the watcher
and spawn a new live goroutine.) -/
theorem stepOp_stopped (fs : FS) (t : TLSConfigBuilder) (op : Op)
    (hd : t.doneClosed = true) (hl : t.liveWatches = 0)
    (hop : ∀ initOk, op ≠ Op.forServer initOk) :
    (stepOp fs t op).doneClosed = true ∧ (stepOp fs t op).liveWatches = 0 := by
  cases op with
  | addCABytes blocks => simp [stepOp, AddCABytes_eq, hd, hl]
  | addCAFile path =>
    obtain ⟨cs, hcs⟩ := AddCAFile_fst fs t path
    simp [stepOp, hcs, hd, hl]
  | addCADir dir =>
    by_cases hdir : dir = ""
    · simp [stepOp, AddCADir, hdir, hd, hl]
    · cases hrd : fs.readDir dir with
      | none => simp [stepOp, AddCADir, hdir, hrd, hd, hl]
      | some entries =>
        obtain ⟨cs, hcs⟩ := addCADirLoop_fst fs dir entries t
        simp [stepOp, AddCADir, hdir, hrd, hcs, hd, hl]
  | setCertKeyFile c k =>
    cases h1 : FileExists fs c with
    | some e => simp [stepOp, SetCertKeyFile, h1, hd, hl]
    | none =>
      cases h2 : FileExists fs k with
      | some e => simp [stepOp, SetCertKeyFile, h1, h2, hd, hl]
      | none => simp [stepOp, SetCertKeyFile, h1, h2, hd, hl]
  | setCertKeyFromBytes parsed =>
    cases parsed with
    | none => simp [stepOp, SetCertKeyFromBytes, hd, hl]
    | some c => simp [stepOp, SetCertKeyFromBytes, hd, hl]
  | setClientAuth a => simp [stepOp, SetClientAuth, hd, hl]
  | setInsecure b => simp [stepOp, SetInsecureSkipVerify, hd, hl]
  | forServer initOk => exact absurd rfl (hop initOk)
  | forClient => exact ⟨hd, hl⟩
  | close =>
    by_cases hw : t.watcherSet
    · simp [stepOp, Close, hw, hd, hl]
    · simp [stepOp, Close, hw, hd, hl]
  | monitorEvent => simp [stepOp, hl, hd]
  | goroutineExit => simp [stepOp, hl, hd]

/-- The `done` channel, once closed, stays closed under every operation
sequence. -/
theorem runOps_doneClosed (fs : FS) :
    ∀ (ops : List Op) (t : TLSConfigBuilder),
      t.doneClosed = true → (runOps fs ops t).doneClosed = true := by
  intro ops
  induction ops with
  | nil => intro t hd; exact hd
  | cons op rest ih =>
    intro t hd
    exact ih _ (stepOp_doneClosed fs t op hd)

/-- A stopped manager stays stopped under every operation sequence that
contains no `ForServer` call. -/
theorem runOps_stopped (fs : FS) :
    ∀ (ops : List Op) (t : TLSConfigBuilder),
      t.doneClosed = true → t.liveWatches = 0 →
      (∀ op ∈ ops, ∀ initOk, op ≠ Op.forServer initOk) →
      (runOps fs ops t).doneClosed = true ∧ (runOps fs ops t).liveWatches = 0 := by
  intro ops
  induction ops with
  | nil => intro t hd hl _; exact ⟨hd, hl⟩
  | cons op rest ih =>
    intro t hd hl hops
    have h := stepOp_stopped fs t op hd hl (hops op (by simp))
    exact ih _ h.1 h.2 (fun x hx => hops x (by simp [hx]))

/-- Claim C9 counterexample: close a watching manager that holds a
published credential, then call `ForServer` again — the watcher field is
recreated and a new watch goroutine is live (`done` stays closed but
`select` gives its arm no priority), and a subsequent qualifying file
event makes that goroutine reload, replacing the published credential:
the stopped manager resumes live reloading. -/
theorem claim_C9_counterexample :
    Close bLive = .ok bStop
  ∧ (bStop.doneClosed = true ∧ bStop.liveWatches = 0 ∧ bStop.watcherSet = false)
  ∧ (runOps fsGood [Op.forServer true] bStop).watcherSet = true
  ∧ (runOps fsGood [Op.forServer true] bStop).liveWatches = 1
  ∧ bStop.cert = some cred0
  ∧ (runOps fsGood [Op.forServer true, Op.monitorEvent] bStop).cert = some cred1
  ∧ cred0 ≠ cred1 :=
  ⟨rfl, ⟨rfl, rfl, rfl⟩, rfl, rfl, rfl, rfl, by decide⟩

/-- Claim C9 (amended): once the monitor is stopped via `Close`, the
`done` channel stays closed under every later operation sequence, and no
later operation other than a `ForServer` call brings a background watch
back to life; a `ForServer` call after `Close` can recreate the watcher
and resume live reloading, so the unrestricted never-resumes property
does not hold. -/
theorem claim_C9_amended (fs : FS) (t t1 : TLSConfigBuilder) (ops : List Op)
    (hw : t.watcherSet = true) (hd : t.doneClosed = false) (h : Close t = .ok t1) :
    t1.doneClosed = true ∧ t1.liveWatches = 0
  ∧ (∀ ops2, (runOps fs ops2 t1).doneClosed = true)
  ∧ ((∀ op ∈ ops, ∀ initOk, op ≠ Op.forServer initOk) →
      (runOps fs ops t1).doneClosed = true ∧ (runOps fs ops t1).liveWatches = 0) := by
  have ht1 : t1 = { t with doneClosed := true, liveWatches := 0, watcherSet := false } := by
    simp [Close, closeChan, hw, hd] at h
    exact h.symm
  subst ht1
  refine ⟨rfl, rfl, ?_, ?_⟩
  · intro ops2
    exact runOps_doneClosed fs ops2 _ rfl
  · intro hops
    exact runOps_stopped fs ops _ rfl rfl hops

/-- Witness for claim C9 (amended): close the watching manager `bLive`,
then deliver a monitor event and a second `Close` — the manager stays
stopped. -/
theorem claim_C9_witness :
    (bStop.doneClosed = true ∧ bStop.liveWatches = 0
      ∧ (∀ ops2, (runOps fsGood ops2 bStop).doneClosed = true)
      ∧ ((∀ op ∈ ([Op.monitorEvent, Op.close] : List Op), ∀ initOk, op ≠ Op.forServer initOk) →
          (runOps fsGood [Op.monitorEvent, Op.close] bStop).doneClosed = true
          ∧ (runOps fsGood [Op.monitorEvent, Op.close] bStop).liveWatches = 0))
  ∧ (runOps fsGood [Op.monitorEvent, Op.close] bStop).liveWatches = 0 := by
  have h := claim_C9_amended fsGood bLive bStop [Op.monitorEvent, Op.close] rfl rfl rfl
  refine ⟨h, (h.2.2.2 ?_).2⟩
  intro op hop initOk he
  subst he
  cases hop with
  | tail _ h2 =>
    cases h2 with
    | tail _ h3 => cases h3

end Listener
